import Mathlib

/-!
Shallow embedding of the console_snek game logic (src/main.rs) and proofs
about it.  The embedding mirrors the Rust source structure by structure and
statement by statement:

* `Vector2`, `BodySegment`, `Snake`, `Food`, `GameState`, `LoseState`
  correspond to the Rust structs of the same names.
* The `VecDeque<BodySegment>` body is a `List BodySegment`, front of the
  deque at the head of the list; `push_front` is `List.cons`,
  `pop_back` is `List.getLast?` / `List.dropLast`.
* Rust `i32` coordinates are `Int` (no arithmetic in the program approaches
  the `i32` range), `u32`/`usize` score and random draws are `Nat`.
* The `unwrap()` of `previous_location` inside `Snake::update` can panic;
  `Snake.update` therefore returns `Option Snake`, `none` meaning panic.
* `ThreadRng` is an abstract stream of draws: a list of naturals consumed
  one at a time (0 when exhausted); `gen_range(lo..hi)` maps a raw draw
  `n` to `lo + n % (hi - lo)`, which is exactly the set of values the Rust
  call can produce.
* The console is external input: key presses become a `Keys` record of
  booleans, one per key the program reads; frame pacing and drawing have
  no effect on game state and are omitted.
-/

/-- Mirrors `struct Vector2 { x: i32, y: i32 }`. -/
structure Vector2 where
  x : Int
  y : Int
deriving DecidableEq, Repr

/-- Mirrors `Vector2::new`. -/
def Vector2.new (x y : Int) : Vector2 := ⟨x, y⟩

/-- Mirrors `Vector2::add` (component-wise, receiver-mutating in Rust). -/
def Vector2.add (v w : Vector2) : Vector2 := ⟨v.x + w.x, v.y + w.y⟩

/-- Mirrors `const BOARD_WIDTH: usize = 80` (as the `i32` it is cast to). -/
def BOARD_WIDTH : Int := 80

/-- Mirrors `const BOARD_HEIGHT: usize = 20` (as the `i32` it is cast to). -/
def BOARD_HEIGHT : Int := 20

/-- Mirrors `struct BodySegment { location: Vector2 }`. -/
structure BodySegment where
  location : Vector2
deriving DecidableEq, Repr

/-- Mirrors `BodySegment::new`. -/
def BodySegment.new (x y : Int) : BodySegment := ⟨⟨x, y⟩⟩

/-- Mirrors `struct Snake`: head location, optional previous head location,
velocity, and the deque of body segments (front of the deque first). -/
structure Snake where
  location : Vector2
  previous_location : Option Vector2
  velocity : Vector2
  body : List BodySegment
deriving DecidableEq, Repr

/-- Mirrors `Snake::new`: head at `(x, y)`, no previous location, zero
velocity, empty body. -/
def Snake.new (x y : Int) : Snake :=
  { location := Vector2.new x y
    previous_location := none
    velocity := Vector2.new 0 0
    body := [] }

/-- The x-axis wraparound of `Snake::update`, exactly as the two sequential
`if` statements in the source: first reset to 0 when above `BOARD_WIDTH`,
then reset to `BOARD_WIDTH` when below 0. -/
def wrapX (x : Int) : Int :=
  let x1 := if x > BOARD_WIDTH then 0 else x
  if x1 < 0 then BOARD_WIDTH else x1

/-- The y-axis wraparound of `Snake::update`, exactly as the two sequential
`if` statements in the source. -/
def wrapY (y : Int) : Int :=
  let y1 := if y > BOARD_HEIGHT then 0 else y
  if y1 < 0 then BOARD_HEIGHT else y1

/-- Both axes of the wraparound applied to a location. -/
def wrapVec (v : Vector2) : Vector2 := ⟨wrapX v.x, wrapY v.y⟩

/-- Mirrors `Snake::update`:
1. if the velocity is nonzero, record the current head as
   `previous_location`;
2. advance the head by the velocity;
3. wrap each axis;
4. if `pop_back` yields a segment, move it to
   `previous_location.unwrap()` and `push_front` it.
The `unwrap` panics when `previous_location` is `None`; that is the `none`
result. -/
def Snake.update (s : Snake) : Option Snake :=
  let prev := if s.velocity.x ≠ 0 ∨ s.velocity.y ≠ 0 then some s.location
              else s.previous_location
  let loc := wrapVec (s.location.add s.velocity)
  match s.body.getLast? with
  | none => some { s with location := loc, previous_location := prev }
  | some _ =>
      match prev with
      | none => none
      | some p =>
          some { s with location := loc, previous_location := prev,
                        body := ⟨p⟩ :: s.body.dropLast }

/-- Mirrors `Snake::grow`: if `previous_location` is set, `push_front` a new
segment there; otherwise do nothing. -/
def Snake.grow (s : Snake) : Snake :=
  match s.previous_location with
  | none => s
  | some p => { s with body := BodySegment.new p.x p.y :: s.body }

/-- Mirrors `struct Food { location: Vector2 }`. -/
structure Food where
  location : Vector2
deriving DecidableEq, Repr

/-- Mirrors `Food::new`. -/
def Food.new (x y : Int) : Food := ⟨Vector2.new x y⟩

/-- Abstract model of `ThreadRng`: the stream of raw draws it will produce,
consumed one at a time (a draw past the end of the list is 0).  Theorems
quantify over the stream, so nothing is assumed about the draws beyond the
range reduction performed by `genRange`. -/
structure Rng where
  stream : List Nat
deriving DecidableEq, Repr

/-- Take one raw draw from the stream. -/
def Rng.next (r : Rng) : Nat × Rng := (r.stream.headD 0, ⟨r.stream.tail⟩)

/-- Model of `rng.gen_range(lo..hi)`: a raw draw reduced into `[lo, hi)`.
For `lo < hi` every value of the interval is reachable and no other. -/
def genRange (lo hi : Nat) (r : Rng) : Nat × Rng :=
  (lo + r.next.1 % (hi - lo), r.next.2)

/-- Mirrors `struct GameState { rng, player, score, food }`. -/
structure GameState where
  rng : Rng
  player : Snake
  score : Nat
  food : Food
deriving DecidableEq, Repr

/-- Mirrors `GameState::new`: snake at (0, 1), score 0, food at (0, 0); the
fresh `ThreadRng` is the supplied stream. -/
def GameState.new (r : Rng) : GameState :=
  { rng := r
    player := Snake.new 0 1
    score := 0
    food := Food.new 0 0 }

/-- Mirrors `GameState::get_random_location`: draw
`x ∈ gen_range(1..BOARD_WIDTH)` then `y ∈ gen_range(1..BOARD_HEIGHT)`,
advancing the rng, and cast to `i32`. -/
def GameState.get_random_location (g : GameState) : Vector2 × GameState :=
  let d1 := genRange 1 80 g.rng
  let d2 := genRange 1 20 d1.2
  (Vector2.new (d1.1 : Int) (d2.1 : Int), { g with rng := d2.2 })

/-- Mirrors `GameState::move_food`: relocate the food to a random location. -/
def GameState.move_food (g : GameState) : GameState :=
  let d := g.get_random_location
  { d.2 with food := ⟨d.1⟩ }

/-- Mirrors `GameState::setup` (the `State` impl): move the food, then zero
the player's velocity. -/
def GameState.setup (g : GameState) : GameState :=
  let g1 := g.move_food
  { g1 with player := { g1.player with velocity := Vector2.new 0 0 } }

/-- The keys the program reads in one frame: the four arrows, `q`, `g`
(debug grow), `y` and `n` (lose-screen prompt).  `true` means
`is_key_pressed` reports the key as pressed this frame. -/
structure Keys where
  up : Bool
  down : Bool
  left : Bool
  right : Bool
  keyQ : Bool
  keyG : Bool
  keyY : Bool
  keyN : Bool
deriving DecidableEq, Repr

/-- No key pressed. -/
def Keys.none : Keys := ⟨false, false, false, false, false, false, false, false⟩

/-- Mirrors `struct LoseState { score: u32 }`. -/
structure LoseState where
  score : Nat
deriving DecidableEq, Repr

/-- Mirrors `LoseState::new`. -/
def LoseState.new (score : Nat) : LoseState := ⟨score⟩

/-- The transitions the two states return to the harness:
`Push(LoseState)`, `CleanPush(GameState)`, `Quit`. -/
inductive Transition where
  | Push (l : LoseState)
  | CleanPush (g : GameState)
  | Quit
deriving DecidableEq, Repr

/-- The food step of `GameState::update` (main.rs lines 55-59): when the
head is on the food, increment the score, grow the snake, move the food. -/
def foodStep (g : GameState) : GameState :=
  if g.player.location = g.food.location then
    GameState.move_food { g with score := g.score + 1, player := g.player.grow }
  else g

/-- The self-collision test of `GameState::update` (lines 61-65): does the
head location equal any body segment's location? -/
def selfCollision (s : Snake) : Bool :=
  s.body.any fun seg => s.location = seg.location

/-- The four arrow-key `if` statements of `GameState::update` (lines 67-82),
in source order Up, Down, Left, Right; each pressed key overwrites both
velocity components. -/
def applyInput (v : Vector2) (k : Keys) : Vector2 :=
  let v1 := if k.up then Vector2.new 0 (-1) else v
  let v2 := if k.down then Vector2.new 0 1 else v1
  let v3 := if k.left then Vector2.new (-1) 0 else v2
  if k.right then Vector2.new 1 0 else v3

/-- Mirrors `GameState::update` for one tick, given the pressed keys:
food step; self-collision check with early `Push(LoseState)` return; arrow
keys; `q` with early `Quit` return; debug `g` grow; `Snake::update`.
`none` is the panic propagated from `Snake::update`. -/
def GameState.update (g : GameState) (k : Keys) :
    Option (GameState × Option Transition) :=
  let g1 := foodStep g
  if selfCollision g1.player then
    some (g1, some (Transition.Push (LoseState.new g1.score)))
  else
    let g2 := { g1 with player := { g1.player with
                  velocity := applyInput g1.player.velocity k } }
    if k.keyQ then some (g2, some Transition.Quit)
    else
      let g3 := if k.keyG then { g2 with player := g2.player.grow } else g2
      match g3.player.update with
      | some p => some ({ g3 with player := p }, Option.none)
      | none => none

/-- Mirrors `LoseState::update`: `y` replays via `CleanPush` of a fresh
`GameState` (built on a fresh rng stream `r`), else `n` or `q` quits, else
nothing; the stored score is never written. -/
def LoseState.update (st : LoseState) (k : Keys) (r : Rng) :
    LoseState × Option Transition :=
  if k.keyY then (st, some (Transition.CleanPush (GameState.new r)))
  else if k.keyN ∨ k.keyQ then (st, some Transition.Quit)
  else (st, Option.none)

/-! ## Helper lemmas about the Snake operations -/

/-- A successful `Snake.update` wraps the head, keeps the velocity, records
the head as `previous_location` exactly when the velocity is nonzero, and
keeps the body length. -/
lemma Snake.update_parts {s s' : Snake} (h : s.update = some s') :
    s'.location = wrapVec (s.location.add s.velocity) ∧
    s'.velocity = s.velocity ∧
    s'.previous_location =
      (if s.velocity.x ≠ 0 ∨ s.velocity.y ≠ 0 then some s.location
       else s.previous_location) ∧
    s'.body.length = s.body.length := by
  unfold Snake.update at h
  rcases hgl : s.body.getLast? with _ | seg
  · rw [hgl] at h
    simp only [Option.some.injEq] at h
    subst h
    simp
  · rw [hgl] at h
    have hne : s.body ≠ [] := by
      intro he; rw [he] at hgl; simp at hgl
    rcases hv : (if s.velocity.x ≠ 0 ∨ s.velocity.y ≠ 0 then some s.location
       else s.previous_location) with _ | p
    · rw [hv] at h; simp at h
    · rw [hv] at h
      simp only [Option.some.injEq] at h
      subst h
      refine ⟨rfl, rfl, rfl, ?_⟩
      simp only [List.length_cons, List.length_dropLast]
      have : 0 < s.body.length := List.length_pos.mpr hne
      omega

/-- Above the board width the wrap resets x to 0. -/
lemma wrapX_high {x : Int} (h : x > 80) : wrapX x = 0 := by
  simp only [wrapX, BOARD_WIDTH]
  omega

/-- Below 0 the wrap resets x to the board width. -/
lemma wrapX_low {x : Int} (h : x < 0) : wrapX x = 80 := by
  simp only [wrapX, BOARD_WIDTH]
  omega

/-- Inside `[0, 80]` the wrap leaves x alone. -/
lemma wrapX_id {x : Int} (h0 : 0 ≤ x) (h1 : x ≤ 80) : wrapX x = x := by
  simp only [wrapX, BOARD_WIDTH]
  omega

/-- Above the board height the wrap resets y to 0. -/
lemma wrapY_high {y : Int} (h : y > 20) : wrapY y = 0 := by
  simp only [wrapY, BOARD_HEIGHT]
  omega

/-- Below 0 the wrap resets y to the board height. -/
lemma wrapY_low {y : Int} (h : y < 0) : wrapY y = 20 := by
  simp only [wrapY, BOARD_HEIGHT]
  omega

/-- Inside `[0, 20]` the wrap leaves y alone. -/
lemma wrapY_id {y : Int} (h0 : 0 ≤ y) (h1 : y ≤ 20) : wrapY y = y := by
  simp only [wrapY, BOARD_HEIGHT]
  omega

/-! ## C1: asymmetric per-axis wraparound -/

/-- C1: for every snake head position and velocity, a completing
`Snake.update()` wraps each axis independently and asymmetrically: after
adding the velocity, an x strictly above the board width 80 is reset to 0
and an x strictly below 0 is reset to 80; likewise y against the board
height 20. -/
theorem c1_asymmetric_wraparound (s s' : Snake) (h : s.update = some s') :
    (s.location.x + s.velocity.x > 80 → s'.location.x = 0) ∧
    (s.location.x + s.velocity.x < 0 → s'.location.x = 80) ∧
    (s.location.y + s.velocity.y > 20 → s'.location.y = 0) ∧
    (s.location.y + s.velocity.y < 0 → s'.location.y = 20) := by
  obtain ⟨hloc, -, -, -⟩ := Snake.update_parts h
  rw [hloc]
  refine ⟨fun hx => ?_, fun hx => ?_, fun hy => ?_, fun hy => ?_⟩
  · exact wrapX_high hx
  · exact wrapX_low hx
  · exact wrapY_high hy
  · exact wrapY_low hy

/-- C1 witness: a head at x = 80 with velocity x = +1 ends at x = 0, and a
head at x = 0 with velocity x = -1 (moving to x = -1) ends at x = 80. -/
theorem c1_asymmetric_wraparound_witness :
    (Snake.update ⟨⟨80, 5⟩, none, ⟨1, 0⟩, []⟩ =
        some ⟨⟨0, 5⟩, some ⟨80, 5⟩, ⟨1, 0⟩, []⟩ ∧
      ((80 : Int) + 1 > 80 → (Vector2.mk 0 5).x = 0)) ∧
    (Snake.update ⟨⟨0, 5⟩, none, ⟨-1, 0⟩, []⟩ =
        some ⟨⟨80, 5⟩, some ⟨0, 5⟩, ⟨-1, 0⟩, []⟩ ∧
      ((0 : Int) + -1 < 0 → (Vector2.mk 80 5).x = 80)) :=
  ⟨⟨by decide,
    (c1_asymmetric_wraparound ⟨⟨80, 5⟩, none, ⟨1, 0⟩, []⟩
      ⟨⟨0, 5⟩, some ⟨80, 5⟩, ⟨1, 0⟩, []⟩ (by decide)).1⟩,
   ⟨by decide,
    (c1_asymmetric_wraparound ⟨⟨0, 5⟩, none, ⟨-1, 0⟩, []⟩
      ⟨⟨80, 5⟩, some ⟨0, 5⟩, ⟨-1, 0⟩, []⟩ (by decide)).2.1⟩⟩

/-! ## C2: segment-follow on a moving snake -/

/-- C2: with nonzero velocity and a non-empty body, one `Snake.update()`
records the old head as `previous_location`, advances the head by the
velocity (wrapped per C1), pops the tail segment, moves it to the recorded
old head location, reinserts it at the front, and keeps the body length. -/
theorem c2_segment_follow (s : Snake)
    (hv : s.velocity.x ≠ 0 ∨ s.velocity.y ≠ 0) (hb : s.body ≠ []) :
    s.update = some
      { location := wrapVec (s.location.add s.velocity)
        previous_location := some s.location
        velocity := s.velocity
        body := ⟨s.location⟩ :: s.body.dropLast } ∧
    ∀ s', s.update = some s' → s'.body.length = s.body.length := by
  have hgl := List.getLast?_eq_getLast_of_ne_nil hb
  refine ⟨?_, fun s' hs' => (Snake.update_parts hs').2.2.2⟩
  simp only [Snake.update]
  rw [hgl, if_pos hv]

/-- C2 witness: head (5,5), velocity (1,0), one body segment at (4,5);
after one update the head is (6,5) and the body segment is at (5,5). -/
theorem c2_segment_follow_witness :
    ((Vector2.mk 1 0).x ≠ 0 ∨ (Vector2.mk 1 0).y ≠ 0) ∧
    ([⟨⟨4, 5⟩⟩] : List BodySegment) ≠ [] ∧
    Snake.update ⟨⟨5, 5⟩, none, ⟨1, 0⟩, [⟨⟨4, 5⟩⟩]⟩ =
      some ⟨⟨6, 5⟩, some ⟨5, 5⟩, ⟨1, 0⟩, [⟨⟨5, 5⟩⟩]⟩ :=
  ⟨by decide, by decide, by
    have h := (c2_segment_follow ⟨⟨5, 5⟩, none, ⟨1, 0⟩, [⟨⟨4, 5⟩⟩]⟩
      (by decide) (by decide)).1
    rw [h]
    decide⟩

/-! ## C3: behaviour at zero velocity -/

/-- C3 counterexample: a snake with zero velocity, head (5,5), stale
`previous_location` (3,3) and one body segment at (4,5) is not left
stationary by `Snake.update()`: the segment jumps to (3,3). -/
theorem c3_stationary_counterexample :
    (Snake.mk ⟨5, 5⟩ (some ⟨3, 3⟩) ⟨0, 0⟩ [⟨⟨4, 5⟩⟩]).velocity = ⟨0, 0⟩ ∧
    Snake.update ⟨⟨5, 5⟩, some ⟨3, 3⟩, ⟨0, 0⟩, [⟨⟨4, 5⟩⟩]⟩ =
      some ⟨⟨5, 5⟩, some ⟨3, 3⟩, ⟨0, 0⟩, [⟨⟨3, 3⟩⟩]⟩ ∧
    (BodySegment.mk ⟨3, 3⟩).location ≠ (BodySegment.mk ⟨4, 5⟩).location := by
  decide

/-- C3 amended: with zero velocity and the head inside `[0,80] × [0,20]`,
`Snake.update()` leaves head, velocity and `previous_location` unchanged;
with an empty body the snake is left entirely unchanged; but with a
non-empty body the tail segment is moved to the stale stored
`previous_location` and reinserted at the front (and update fails when no
previous location is stored), so body segments can move at zero velocity. -/
theorem c3_stationary_amended (s : Snake) (hvx : s.velocity.x = 0)
    (hvy : s.velocity.y = 0) (hx0 : 0 ≤ s.location.x) (hx1 : s.location.x ≤ 80)
    (hy0 : 0 ≤ s.location.y) (hy1 : s.location.y ≤ 20) :
    (∀ s', s.update = some s' → s'.location = s.location ∧
        s'.velocity = s.velocity ∧
        s'.previous_location = s.previous_location) ∧
    (s.body = [] → s.update = some s) ∧
    (s.body ≠ [] → s.previous_location = none → s.update = none) ∧
    (∀ p, s.body ≠ [] → s.previous_location = some p →
        s.update = some { s with body := ⟨p⟩ :: s.body.dropLast }) := by
  have hvne : ¬(s.velocity.x ≠ 0 ∨ s.velocity.y ≠ 0) := by
    simp [hvx, hvy]
  have hwrap : wrapVec (s.location.add s.velocity) = s.location := by
    simp only [wrapVec, Vector2.add, hvx, hvy, add_zero]
    calc (⟨wrapX s.location.x, wrapY s.location.y⟩ : Vector2)
        = ⟨s.location.x, s.location.y⟩ := by
          rw [wrapX_id hx0 hx1, wrapY_id hy0 hy1]
      _ = s.location := rfl
  refine ⟨fun s' hs' => ?_, fun hb => ?_, fun hb hp => ?_, fun p hb hp => ?_⟩
  · obtain ⟨h1, h2, h3, -⟩ := Snake.update_parts hs'
    rw [if_neg hvne] at h3
    exact ⟨h1.trans hwrap, h2, h3⟩
  · rcases s with ⟨l, pl, v, b⟩
    simp only at hb
    subst hb
    simp only [Snake.update]
    rw [List.getLast?_nil, if_neg hvne, hwrap]
  · have hgl := List.getLast?_eq_getLast_of_ne_nil hb
    simp only [Snake.update]
    rw [hgl, if_neg hvne, hp]
  · have hgl := List.getLast?_eq_getLast_of_ne_nil hb
    simp only [Snake.update]
    rw [hgl, if_neg hvne, hp, hwrap]

/-- C3 amended witness: the counterexample snake itself, showing the tail
segment lands on the stale previous location (3,3). -/
theorem c3_stationary_amended_witness :
    Snake.update ⟨⟨5, 5⟩, some ⟨3, 3⟩, ⟨0, 0⟩, [⟨⟨4, 5⟩⟩]⟩ =
      some ⟨⟨5, 5⟩, some ⟨3, 3⟩, ⟨0, 0⟩, [⟨⟨3, 3⟩⟩]⟩ := by
  have h := (c3_stationary_amended ⟨⟨5, 5⟩, some ⟨3, 3⟩, ⟨0, 0⟩, [⟨⟨4, 5⟩⟩]⟩
    (by decide) (by decide) (by decide) (by decide) (by decide)
    (by decide)).2.2.2 ⟨3, 3⟩ (by decide) rfl
  rw [h]
  decide

/-! ## C4: totality of Snake.update -/

/-- `Snake.update` completes whenever the body is empty, the velocity is
nonzero, or a previous location is stored. -/
lemma Snake.update_isSome_of (s : Snake)
    (h : s.body = [] ∨ (s.velocity.x ≠ 0 ∨ s.velocity.y ≠ 0) ∨
      s.previous_location.isSome) :
    (s.update).isSome := by
  simp only [Snake.update]
  rcases hgl : s.body.getLast? with _ | seg
  · simp
  · have hps : (if s.velocity.x ≠ 0 ∨ s.velocity.y ≠ 0 then some s.location
        else s.previous_location).isSome := by
      rcases h with hb | hv | hp
      · rw [hb] at hgl; simp at hgl
      · rw [if_pos hv]; rfl
      · split
        · rfl
        · exact hp
    rcases hps' : (if s.velocity.x ≠ 0 ∨ s.velocity.y ≠ 0 then
        some s.location else s.previous_location) with _ | p
    · rw [hps'] at hps; simp at hps
    · simp

/-- C4 counterexample: `Snake.update()` is not total.  A snake with
`previous_location = None`, zero velocity and a non-empty body panics on
the `unwrap()` in the segment-follow step (modelled as `none`). -/
theorem c4_totality_counterexample :
    (Snake.mk ⟨5, 5⟩ none ⟨0, 0⟩ [⟨⟨4, 5⟩⟩]).previous_location = none ∧
    Snake.update ⟨⟨5, 5⟩, none, ⟨0, 0⟩, [⟨⟨4, 5⟩⟩]⟩ = none := by
  decide

/-- C4 amended: `Snake.update()` completes for every snake whose body is
empty, whose velocity is nonzero, or whose `previous_location` is set; and
when the body is empty the segment-follow step is a no-op on the body.
Only the remaining case (`previous_location = None`, zero velocity,
non-empty body) panics on the `unwrap()`. -/
theorem c4_totality_amended (s : Snake)
    (h : s.body = [] ∨ (s.velocity.x ≠ 0 ∨ s.velocity.y ≠ 0) ∨
      s.previous_location.isSome) :
    (s.update).isSome ∧
    (s.body = [] → ∀ s', s.update = some s' → s'.body = []) := by
  constructor
  · exact Snake.update_isSome_of s h
  · intro hb s' hs'
    have := (Snake.update_parts hs').2.2.2
    rw [hb] at this
    simpa using List.length_eq_zero.mp this

/-- C4 amended witness: a snake with `previous_location = None` and an
empty body updates successfully and keeps the body empty. -/
theorem c4_totality_amended_witness :
    ((Snake.update ⟨⟨5, 5⟩, none, ⟨0, 0⟩, []⟩).isSome ∧
      ([] : List BodySegment) = []) ∧
    Snake.update ⟨⟨5, 5⟩, none, ⟨0, 0⟩, []⟩ =
      some ⟨⟨5, 5⟩, none, ⟨0, 0⟩, []⟩ := by
  have h := c4_totality_amended ⟨⟨5, 5⟩, none, ⟨0, 0⟩, []⟩ (Or.inl rfl)
  exact ⟨⟨h.1, rfl⟩, by decide⟩

/-! ## C5: grow -/

/-- C5: `Snake.grow()` is a silent no-op when `previous_location` is
`None`; with `previous_location = Some p` it pushes exactly one new segment
at the front of the chain located at `p`, increasing the body length by 1
and changing no other field. -/
theorem c5_grow (s : Snake) :
    (s.previous_location = none → s.grow = s) ∧
    ∀ p, s.previous_location = some p →
      s.grow = { s with body := BodySegment.new p.x p.y :: s.body } ∧
      s.grow.body.length = s.body.length + 1 := by
  constructor
  · intro hp
    unfold Snake.grow
    rw [hp]
  · intro p hp
    unfold Snake.grow
    rw [hp]
    exact ⟨rfl, by simp⟩

/-- C5 witness: growing with a stored previous location (3,3) adds the one
segment there; growing without one changes nothing. -/
theorem c5_grow_witness :
    (Snake.grow ⟨⟨5, 5⟩, some ⟨3, 3⟩, ⟨1, 0⟩, []⟩ =
        ⟨⟨5, 5⟩, some ⟨3, 3⟩, ⟨1, 0⟩, [⟨⟨3, 3⟩⟩]⟩ ∧
      (1 : Nat) = 0 + 1) ∧
    Snake.grow ⟨⟨5, 5⟩, none, ⟨1, 0⟩, []⟩ = ⟨⟨5, 5⟩, none, ⟨1, 0⟩, []⟩ :=
  ⟨by
    have h := (c5_grow ⟨⟨5, 5⟩, some ⟨3, 3⟩, ⟨1, 0⟩, []⟩).2 ⟨3, 3⟩ rfl
    exact ⟨h.1.trans (by decide), h.2⟩,
   (c5_grow ⟨⟨5, 5⟩, none, ⟨1, 0⟩, []⟩).1 rfl⟩

/-! ## Helper lemmas about the GameState operations -/

/-- `Snake.grow` changes no field but the body. -/
lemma Snake.grow_fields (s : Snake) :
    s.grow.location = s.location ∧ s.grow.velocity = s.velocity ∧
    s.grow.previous_location = s.previous_location := by
  rcases hp : s.previous_location with _ | p <;> simp [Snake.grow, hp]

/-- `GameState.move_food` keeps the player and the score and places the
food inside `[1, 80) × [1, 20)`. -/
lemma GameState.move_food_parts (g : GameState) :
    (g.move_food).player = g.player ∧ (g.move_food).score = g.score ∧
    1 ≤ (g.move_food).food.location.x ∧ (g.move_food).food.location.x < 80 ∧
    1 ≤ (g.move_food).food.location.y ∧ (g.move_food).food.location.y < 20 := by
  simp only [GameState.move_food, GameState.get_random_location, genRange,
    Vector2.new]
  refine ⟨trivial, trivial, ?_, ?_, ?_, ?_⟩ <;> omega

/-- On an eating tick the food step increments the score, grows the snake
and moves the food. -/
lemma foodStep_eat {g : GameState} (h : g.player.location = g.food.location) :
    foodStep g = GameState.move_food
      { g with score := g.score + 1, player := g.player.grow } := by
  unfold foodStep
  rw [if_pos h]

/-- Off the food the food step does nothing. -/
lemma foodStep_skip {g : GameState}
    (h : g.player.location ≠ g.food.location) : foodStep g = g := by
  unfold foodStep
  rw [if_neg h]

/-- The food step never changes the player's head location, velocity or
previous location. -/
lemma foodStep_player_fields (g : GameState) :
    (foodStep g).player.location = g.player.location ∧
    (foodStep g).player.velocity = g.player.velocity ∧
    (foodStep g).player.previous_location = g.player.previous_location := by
  by_cases he : g.player.location = g.food.location
  · have hm := (GameState.move_food_parts
      { g with score := g.score + 1, player := g.player.grow }).1
    rw [foodStep_eat he, hm]
    exact ⟨(Snake.grow_fields g.player).1, (Snake.grow_fields g.player).2.1,
      (Snake.grow_fields g.player).2.2⟩
  · rw [foodStep_skip he]
    exact ⟨rfl, rfl, rfl⟩

/-- Shape of one successful `GameState.update` tick: the score and food are
those left by the food step; on self-collision the post-food-step state is
returned with a `Push` of the lose state; otherwise the returned velocity
is the arrow-key result and no `Push` transition is produced. -/
lemma GameState.update_shape {g : GameState} {k : Keys} {g' : GameState}
    {t : Option Transition} (h : g.update k = some (g', t)) :
    g'.score = (foodStep g).score ∧ g'.food = (foodStep g).food ∧
    (selfCollision (foodStep g).player = true →
      g' = foodStep g ∧
      t = some (Transition.Push (LoseState.new (foodStep g).score))) ∧
    (selfCollision (foodStep g).player = false →
      g'.player.velocity = applyInput (foodStep g).player.velocity k ∧
      ∀ l, t ≠ some (Transition.Push l)) := by
  simp only [GameState.update] at h
  by_cases hc : selfCollision (foodStep g).player = true
  · rw [if_pos hc] at h
    simp only [Option.some.injEq, Prod.mk.injEq] at h
    obtain ⟨h1, h2⟩ := h
    subst h1
    subst h2
    exact ⟨rfl, rfl, fun _ => ⟨rfl, rfl⟩,
      fun hcf => absurd hc (by rw [hcf]; decide)⟩
  · rw [if_neg hc] at h
    have hc' : selfCollision (foodStep g).player = false := by
      cases hcase : selfCollision (foodStep g).player
      · rfl
      · exact absurd hcase hc
    by_cases hq : k.keyQ = true
    · rw [if_pos hq] at h
      simp only [Option.some.injEq, Prod.mk.injEq] at h
      obtain ⟨h1, h2⟩ := h
      subst h1
      subst h2
      refine ⟨rfl, rfl, fun hcc => absurd hcc (by rw [hc']; decide),
        fun _ => ⟨rfl, fun l => by simp⟩⟩
    · rw [if_neg hq] at h
      split at h
      · rename_i p hu
        simp only [Option.some.injEq, Prod.mk.injEq] at h
        obtain ⟨h1, h2⟩ := h
        subst h1
        subst h2
        by_cases hg : k.keyG = true
        · rw [if_pos hg] at hu ⊢
          have hv1 := (Snake.update_parts hu).2.1
          refine ⟨rfl, rfl, fun hcc => absurd hcc (by rw [hc']; decide),
            fun _ => ⟨?_, fun l => by simp⟩⟩
          show p.velocity = _
          rw [hv1]
          show (Snake.grow _).velocity = _
          rw [(Snake.grow_fields _).2.1]
        · rw [if_neg hg] at hu ⊢
          have hv1 := (Snake.update_parts hu).2.1
          refine ⟨rfl, rfl, fun hcc => absurd hcc (by rw [hc']; decide),
            fun _ => ⟨?_, fun l => by simp⟩⟩
          exact hv1
      · exact absurd h (by simp)

/-! ## C6: eating food -/

/-- C6: on a tick where the head sits on the food, the food step of
`GameState.update` increments the score by exactly 1, invokes `grow()`
exactly once (the player becomes exactly `grow()` of the old player) and
relocates the food once into `[1, 80) × [1, 20)`; any completing update of
such a tick returns that score and a food location in range, and a tick
where the head is off the food leaves score and food untouched. -/
theorem c6_eat_food (g : GameState) (k : Keys) :
    (g.player.location = g.food.location →
      (foodStep g).score = g.score + 1 ∧
      (foodStep g).player = g.player.grow ∧
      1 ≤ (foodStep g).food.location.x ∧ (foodStep g).food.location.x < 80 ∧
      1 ≤ (foodStep g).food.location.y ∧ (foodStep g).food.location.y < 20) ∧
    (g.player.location ≠ g.food.location → foodStep g = g) ∧
    ∀ g' t, g.update k = some (g', t) →
      (g.player.location = g.food.location →
        g'.score = g.score + 1 ∧
        1 ≤ g'.food.location.x ∧ g'.food.location.x < 80 ∧
        1 ≤ g'.food.location.y ∧ g'.food.location.y < 20) ∧
      (g.player.location ≠ g.food.location →
        g'.score = g.score ∧ g'.food = g.food) := by
  have heat : g.player.location = g.food.location →
      (foodStep g).score = g.score + 1 ∧
      (foodStep g).player = g.player.grow ∧
      1 ≤ (foodStep g).food.location.x ∧ (foodStep g).food.location.x < 80 ∧
      1 ≤ (foodStep g).food.location.y ∧ (foodStep g).food.location.y < 20 := by
    intro he
    have hm := GameState.move_food_parts
      { g with score := g.score + 1, player := g.player.grow }
    rw [foodStep_eat he]
    exact ⟨hm.2.1, hm.1, hm.2.2.1, hm.2.2.2.1, hm.2.2.2.2.1, hm.2.2.2.2.2⟩
  refine ⟨heat, fun hne => foodStep_skip hne, fun g' t h => ?_⟩
  obtain ⟨hsc, hfd, -, -⟩ := GameState.update_shape h
  constructor
  · intro he
    obtain ⟨e1, -, e3, e4, e5, e6⟩ := heat he
    rw [hsc, hfd]
    exact ⟨e1, e3, e4, e5, e6⟩
  · intro hne
    rw [hsc, hfd, foodStep_skip hne]
    exact ⟨rfl, rfl⟩

/-- A concrete eating tick for the C6 witness: head on the food at (5,5),
rng draws 3 then 4. -/
def c6Game : GameState :=
  ⟨⟨[3, 4]⟩, ⟨⟨5, 5⟩, some ⟨4, 5⟩, ⟨1, 0⟩, []⟩, 7, ⟨⟨5, 5⟩⟩⟩

/-- C6 witness: on the concrete eating tick the score becomes 8, the player
is grown once, and the food lands in range (at (4, 5)). -/
theorem c6_eat_food_witness :
    c6Game.player.location = c6Game.food.location ∧
    (foodStep c6Game).score = c6Game.score + 1 ∧
    (foodStep c6Game).player = c6Game.player.grow ∧
    1 ≤ (foodStep c6Game).food.location.x ∧
    (foodStep c6Game).food.location.x < 80 := by
  have h := (c6_eat_food c6Game Keys.none).1 (by decide)
  exact ⟨by decide, h.1, h.2.1, h.2.2.1, h.2.2.2.1⟩

/-! ## C7: self-collision -/

/-- C7: the self-collision check of `GameState.update` fires exactly when
the head location equals some body segment's location (velocity plays no
role); when it fires, the tick returns the post-food-step state unchanged
with a `Push` of the lose state carrying the score at that moment, and the
head location, velocity and previous location are those from before the
tick (no input processed, no movement); when it does not fire, no `Push`
transition is produced. -/
theorem c7_self_collision (g : GameState) (k : Keys) :
    (selfCollision (foodStep g).player = true ↔
      ∃ seg ∈ (foodStep g).player.body,
        (foodStep g).player.location = seg.location) ∧
    (selfCollision (foodStep g).player = true →
      g.update k = some (foodStep g,
        some (Transition.Push (LoseState.new (foodStep g).score))) ∧
      (foodStep g).player.location = g.player.location ∧
      (foodStep g).player.velocity = g.player.velocity ∧
      (foodStep g).player.previous_location = g.player.previous_location) ∧
    (selfCollision (foodStep g).player = false →
      ∀ g' t, g.update k = some (g', t) →
        ∀ l, t ≠ some (Transition.Push l)) := by
  refine ⟨?_, fun hc => ?_, fun hc g' t h => ?_⟩
  · simp [selfCollision, List.any_eq_true]
  · refine ⟨?_, (foodStep_player_fields g).1, (foodStep_player_fields g).2.1,
      (foodStep_player_fields g).2.2⟩
    simp only [GameState.update]
    rw [if_pos hc]
  · exact ((GameState.update_shape h).2.2.2 hc).2

/-- A concrete colliding tick for the C7 witness: head (5,5) on the single
body segment at (5,5), off the food. -/
def c7Game : GameState :=
  ⟨⟨[]⟩, ⟨⟨5, 5⟩, some ⟨4, 5⟩, ⟨1, 0⟩, [⟨⟨5, 5⟩⟩]⟩, 7, ⟨⟨9, 9⟩⟩⟩

/-- C7 witness: the concrete colliding tick pushes the lose state with the
current score 7 and leaves the snake untouched. -/
theorem c7_self_collision_witness :
    selfCollision (foodStep c7Game).player = true ∧
    GameState.update c7Game Keys.none = some (foodStep c7Game,
      some (Transition.Push (LoseState.new (foodStep c7Game).score))) ∧
    (foodStep c7Game).score = 7 ∧
    (foodStep c7Game).player.location = c7Game.player.location := by
  have h := (c7_self_collision c7Game Keys.none).2.1 (by decide)
  exact ⟨by decide, h.1, by decide, h.2.1⟩

/-! ## C8: arrow-key input handling -/

/-- A game state with a diagonal velocity (1,1), used to refute the claim
that input handling leaves no diagonal velocity. -/
def c8Game : GameState := ⟨⟨[]⟩, ⟨⟨5, 5⟩, none, ⟨1, 1⟩, []⟩, 0, ⟨⟨9, 9⟩⟩⟩

/-- C8 counterexample: with no arrow key pressed and a prior velocity of
(1,1), input handling leaves the velocity (1,1), which has two nonzero
components — the claimed "never has two nonzero components" fails. -/
theorem c8_input_counterexample :
    applyInput ⟨1, 1⟩ Keys.none = ⟨1, 1⟩ ∧
    ((GameState.update c8Game Keys.none).map fun p => p.1.player.velocity) =
      some ⟨1, 1⟩ ∧
    (Vector2.mk 1 1).x ≠ 0 ∧ (Vector2.mk 1 1).y ≠ 0 := by
  decide

/-- C8 amended: input handling checks Up, Down, Left, Right in that order,
each pressed key setting its axis component and zeroing the orthogonal one,
so the last-checked pressed key determines the velocity, the velocity after
input handling has a single nonzero component whenever at least one arrow
key is pressed, and the velocity is unchanged (diagonal values included)
when no arrow key is pressed; a completing non-colliding
`GameState.update` tick ends with exactly the velocity computed by input
handling. -/
theorem c8_input_amended (v : Vector2) (k : Keys) :
    (k.right = true → applyInput v k = ⟨1, 0⟩) ∧
    (k.right = false → k.left = true → applyInput v k = ⟨-1, 0⟩) ∧
    (k.right = false → k.left = false → k.down = true →
      applyInput v k = ⟨0, 1⟩) ∧
    (k.right = false → k.left = false → k.down = false → k.up = true →
      applyInput v k = ⟨0, -1⟩) ∧
    (k.up = false → k.down = false → k.left = false → k.right = false →
      applyInput v k = v) ∧
    ((k.up = true ∨ k.down = true ∨ k.left = true ∨ k.right = true) →
      applyInput v k = ⟨0, -1⟩ ∨ applyInput v k = ⟨0, 1⟩ ∨
      applyInput v k = ⟨-1, 0⟩ ∨ applyInput v k = ⟨1, 0⟩) ∧
    ∀ g g' t, g.player.velocity = v → GameState.update g k = some (g', t) →
      selfCollision (foodStep g).player = false →
      g'.player.velocity = applyInput v k := by
  refine ⟨fun hr => by simp [applyInput, Vector2.new, hr],
    fun hr hl => by simp [applyInput, Vector2.new, hr, hl],
    fun hr hl hd => by simp [applyInput, Vector2.new, hr, hl, hd],
    fun hr hl hd hu => by simp [applyInput, Vector2.new, hr, hl, hd, hu],
    fun hu hd hl hr => by simp [applyInput, Vector2.new, hu, hd, hl, hr],
    ?_, ?_⟩
  · intro hpress
    rcases k with ⟨u, d, dl, r, q1, g1, y1, n1⟩
    cases u <;> cases d <;> cases dl <;> cases r <;>
      simp_all [applyInput, Vector2.new]
  · intro g g' t hv h hc
    have hsh := ((GameState.update_shape h).2.2.2 hc).1
    rw [hsh, (foodStep_player_fields g).2.1, hv]

/-- C8 amended witness: holding Up and Right together, the last-checked key
(Right) wins and the result (1, 0) is non-diagonal; with nothing pressed a
velocity (3, 4) survives. -/
theorem c8_input_amended_witness :
    applyInput ⟨3, 4⟩ ⟨true, false, false, true, false, false, false, false⟩ =
      ⟨1, 0⟩ ∧
    (applyInput ⟨3, 4⟩ ⟨true, false, false, true, false, false, false, false⟩ =
        ⟨0, -1⟩ ∨
      applyInput ⟨3, 4⟩ ⟨true, false, false, true, false, false, false, false⟩ =
        ⟨0, 1⟩ ∨
      applyInput ⟨3, 4⟩ ⟨true, false, false, true, false, false, false, false⟩ =
        ⟨-1, 0⟩ ∨
      applyInput ⟨3, 4⟩ ⟨true, false, false, true, false, false, false, false⟩ =
        ⟨1, 0⟩) ∧
    applyInput ⟨3, 4⟩ Keys.none = ⟨3, 4⟩ :=
  ⟨(c8_input_amended ⟨3, 4⟩
      ⟨true, false, false, true, false, false, false, false⟩).1 rfl,
   (c8_input_amended ⟨3, 4⟩
      ⟨true, false, false, true, false, false, false, false⟩).2.2.2.2.2.1
      (Or.inl rfl),
   (c8_input_amended ⟨3, 4⟩ Keys.none).2.2.2.2.1 rfl rfl rfl rfl⟩

/-! ## C9: the lose state -/

/-- C9: in the lose state, `y` returns a `CleanPush` of a fresh game whose
score is 0 (and whose `setup` re-randomizes the food into
`[1, 80) × [1, 20)`); otherwise `n` or `q` returns `Quit`; otherwise no
transition is returned; in every case the stored score is unchanged. -/
theorem c9_lose_replay (st : LoseState) (k : Keys) (r : Rng) :
    (k.keyY = true →
      st.update k r = (st, some (Transition.CleanPush (GameState.new r))) ∧
      (GameState.new r).score = 0 ∧
      1 ≤ ((GameState.new r).setup).food.location.x ∧
      ((GameState.new r).setup).food.location.x < 80 ∧
      1 ≤ ((GameState.new r).setup).food.location.y ∧
      ((GameState.new r).setup).food.location.y < 20) ∧
    (k.keyY = false → (k.keyN = true ∨ k.keyQ = true) →
      st.update k r = (st, some Transition.Quit)) ∧
    (k.keyY = false → k.keyN = false → k.keyQ = false →
      st.update k r = (st, Option.none)) := by
  have hm := GameState.move_food_parts (GameState.new r)
  refine ⟨fun hy => ?_, fun hy hnq => ?_, fun hy hn hq => ?_⟩
  · refine ⟨?_, rfl, hm.2.2.1, hm.2.2.2.1, hm.2.2.2.2.1, hm.2.2.2.2.2⟩
    simp only [LoseState.update]
    rw [if_pos hy]
  · simp only [LoseState.update]
    rw [if_neg (by simp [hy]), if_pos (by rcases hnq with h | h <;> simp [h])]
  · simp only [LoseState.update]
    rw [if_neg (by simp [hy]), if_neg (by simp [hn, hq])]

/-- C9 witness: concrete lose-state ticks at score 7 — `y` replays with a
fresh zero-score game, `n` quits, no key does nothing. -/
theorem c9_lose_replay_witness :
    (LoseState.update ⟨7⟩ ⟨false, false, false, false, false, false, true,
        false⟩ ⟨[]⟩ =
      (⟨7⟩, some (Transition.CleanPush (GameState.new ⟨[]⟩))) ∧
      (GameState.new ⟨[]⟩).score = 0) ∧
    LoseState.update ⟨7⟩ ⟨false, false, false, false, false, false, false,
        true⟩ ⟨[]⟩ = (⟨7⟩, some Transition.Quit) ∧
    LoseState.update ⟨7⟩ Keys.none ⟨[]⟩ = (⟨7⟩, Option.none) :=
  ⟨⟨((c9_lose_replay ⟨7⟩ ⟨false, false, false, false, false, false, true,
        false⟩ ⟨[]⟩).1 rfl).1,
    ((c9_lose_replay ⟨7⟩ ⟨false, false, false, false, false, false, true,
        false⟩ ⟨[]⟩).1 rfl).2.1⟩,
   (c9_lose_replay ⟨7⟩ ⟨false, false, false, false, false, false, false,
        true⟩ ⟨[]⟩).2.1 rfl (Or.inl rfl),
   (c9_lose_replay ⟨7⟩ Keys.none ⟨[]⟩).2.2 rfl rfl rfl⟩

/-! ## C10: reachable snakes never hit the unwrap -/

/-- A successful `Snake.update` establishes the invariant that a non-empty
body comes with a stored previous location (success already forces the
stored location in the non-empty case). -/
lemma Snake.update_keeps_inv {s s' : Snake} (h : s.update = some s') :
    s'.body ≠ [] → s'.previous_location.isSome := by
  simp only [Snake.update] at h
  rcases hgl : s.body.getLast? with _ | seg
  · rw [hgl] at h
    simp only [Option.some.injEq] at h
    subst h
    intro hb'
    exact absurd (List.getLast?_eq_none_iff.mp hgl) hb'
  · rw [hgl] at h
    rcases hp : (if s.velocity.x ≠ 0 ∨ s.velocity.y ≠ 0 then some s.location
        else s.previous_location) with _ | p
    · rw [hp] at h
      simp at h
    · rw [hp] at h
      simp only [Option.some.injEq] at h
      subst h
      intro _
      rfl

/-- `Snake.grow` preserves the invariant that a non-empty body comes with a
stored previous location. -/
lemma Snake.grow_keeps_inv {s : Snake}
    (hs : s.body ≠ [] → s.previous_location.isSome) :
    s.grow.body ≠ [] → s.grow.previous_location.isSome := by
  rcases hp : s.previous_location with _ | p
  · have hgs : s.grow = s := by simp [Snake.grow, hp]
    rw [hgs]
    exact hs
  · intro _
    rw [(Snake.grow_fields s).2.2, hp]
    rfl

/-- The snake states the game can produce from `Snake::new`: any sequence
of `update()` and `grow()` calls, interleaved with the velocity
assignments done by the input handling. -/
inductive SnakeReachable : Snake → Prop where
  | new (x y : Int) : SnakeReachable (Snake.new x y)
  | step {s s' : Snake} : SnakeReachable s → s.update = some s' →
      SnakeReachable s'
  | grown {s : Snake} : SnakeReachable s → SnakeReachable s.grow
  | steer {s : Snake} (v : Vector2) : SnakeReachable s →
      SnakeReachable { s with velocity := v }

/-- C10: every snake state reachable from `Snake::new` satisfies the
invariant that a non-empty body implies a stored previous location, and
consequently `Snake.update()` never panics on the `unwrap` there. -/
theorem c10_reachable_invariant (s : Snake) (h : SnakeReachable s) :
    (s.body ≠ [] → s.previous_location.isSome) ∧ (s.update).isSome := by
  have inv : s.body ≠ [] → s.previous_location.isSome := by
    induction h with
    | new x y => exact fun hb => absurd rfl hb
    | step hr hu ih => exact Snake.update_keeps_inv hu
    | grown hr ih => exact Snake.grow_keeps_inv ih
    | steer v hr ih => exact ih
  refine ⟨inv, Snake.update_isSome_of s ?_⟩
  rcases hb : s.body with _ | ⟨a, l⟩
  · exact Or.inl rfl
  · exact Or.inr (Or.inr (inv (by rw [hb]; simp)))

/-- C10 witness: the initial snake of the game, `Snake::new(0, 1)`, is
reachable and updates without panic. -/
theorem c10_reachable_invariant_witness :
    ((Snake.new 0 1).body ≠ [] → (Snake.new 0 1).previous_location.isSome) ∧
    ((Snake.new 0 1).update).isSome :=
  c10_reachable_invariant (Snake.new 0 1) (SnakeReachable.new 0 1)
